import Mathlib

/-!
Verification of the Price Inconsistency Checker (`src/app.py`).

The program reads a pipe-delimited feed, validates its header, normalizes
approval flags and prices, filters rows whose four approval flags are all
true, groups those rows by `COLOR_ID`, flags groups whose distinct
non-missing price count exceeds 1 or that contain a missing price, labels
each row of a flagged group, and emits an issues table plus an impex table
(the issues table without the `Issue` column).

The embedding below mirrors `src/app.py` line by line: pandas dataframes
become `List` values, `NaN` prices become `Option.none`, and the
group-by/filter/transform combinators become explicit list operations that
preserve row order as pandas does.
-/

namespace PriceChecker

/-- One raw record of the input feed, all fields text as parsed by
`pd.read_csv(file, delimiter="|", dtype=str)`. -/
structure RawRow where
  pid : String
  colorId : String
  consumerPrice : String
  baseApproved : String
  colorApproved : String
  skuApproved : String
  ecomEnabled : String
  deriving Repr, DecidableEq

/-- One normalized record: approval flags are booleans, the price is an
optional rational (`none` models pandas `NaN`). -/
structure Row where
  pid : String
  colorId : String
  price : Option Rat
  baseApproved : Bool
  colorApproved : Bool
  skuApproved : Bool
  ecomEnabled : Bool
  deriving Repr, DecidableEq

/-- Source `country_options` from `src/app.py` line 10. -/
def countryOptions : List (String × String) :=
  [("Colombia", "CO"), ("Mexico", "MX"), ("Chile", "CL"),
   ("Argentina", "AR"), ("Brasil", "BR")]

/-- Source `price_list_prefix = country_options[selected_country] + "PriceList"`
(`src/app.py` line 12). -/
def priceListOf (country : String) : String :=
  ((countryOptions.lookup country).getD "") ++ "PriceList"

/-- Source `required_columns` from `src/app.py` line 25, as an ordered list. -/
def requiredColumns : List String :=
  ["PID", "COLOR_ID", "CONSUMERPRICE", "BASE_APPROVED", "COLOR_APPROVED",
   "SKU_APPROVED", "ECOM_ENABLED"]

/-- Source `required_columns - set(df.columns)` (`src/app.py` line 27): the
required columns absent from the parsed header. -/
def missingColumns (header : List String) : List String :=
  requiredColumns.filter (fun c => !header.contains c)

/-- Python `str.strip()` on a character list: surrounding whitespace
removed from both ends. -/
def stripChars (cs : List Char) : List Char :=
  ((cs.dropWhile Char.isWhitespace).reverse.dropWhile Char.isWhitespace).reverse

/-- Python `str.strip()`: the string without surrounding whitespace. -/
def pyStrip (s : String) : String :=
  String.mk (stripChars s.data)

/-- Python `str.lower()`: every character lower-cased. -/
def pyLower (s : String) : String :=
  String.mk (s.data.map Char.toLower)

/-- Source `lambda x: str(x).strip().lower() == "true"` (`src/app.py` line 32):
boolean normalization of one approval-flag value. -/
def parseBool (s : String) : Bool :=
  pyLower (pyStrip s) == "true"

/-- Numeral value of a digit list, most significant first. -/
def natOfDigits (cs : List Char) : Nat :=
  cs.foldl (fun a c => a * 10 + (c.toNat - ('0').toNat)) 0

/-- Source `pd.to_numeric(·, errors="coerce")` (`src/app.py` line 35) on one text
value: an optional sign followed by decimal digits with at most one point
parses to a rational; anything else (the empty string included) coerces to
the missing marker `none`. -/
def toNumeric (s : String) : Option Rat :=
  let t := stripChars s.data
  let sgn : Int := match t with
    | '-' :: _ => -1
    | _ => 1
  let body : List Char := match t with
    | '-' :: rest => rest
    | '+' :: rest => rest
    | cs => cs
  let ip := body.takeWhile (fun c => c != '.')
  match body.dropWhile (fun c => c != '.') with
  | [] =>
      if !ip.isEmpty && ip.all Char.isDigit then
        some ((sgn * (natOfDigits ip : Int) : Int) : Rat)
      else none
  | _ :: fp =>
      if ip.all Char.isDigit && fp.all Char.isDigit
          && (!ip.isEmpty || !fp.isEmpty) then
        some (((sgn * ((natOfDigits ip * 10 ^ fp.length + natOfDigits fp : Nat) : Int) : Int) : Rat)
              / ((10 ^ fp.length : Nat) : Rat))
      else none

/-- Field normalization of one row: the four approval columns through
`parseBool` (`src/app.py` line 32) and `CONSUMERPRICE` through `toNumeric`
(`src/app.py` line 35). No row is dropped or erred on. -/
def normalizeRow (r : RawRow) : Row :=
  { pid := r.pid
    colorId := r.colorId
    price := toNumeric r.consumerPrice
    baseApproved := parseBool r.baseApproved
    colorApproved := parseBool r.colorApproved
    skuApproved := parseBool r.skuApproved
    ecomEnabled := parseBool r.ecomEnabled }

/-- Source `df[approval_columns].all(axis=1)` (`src/app.py` line 38): all four
approval booleans of a row are true. -/
def allApproved (r : Row) : Bool :=
  r.baseApproved && r.colorApproved && r.skuApproved && r.ecomEnabled

/-- Source `approved_colors = df[df[approval_columns].all(axis=1)]`
(`src/app.py` line 38): the eligible rows, in feed order. -/
def approvedColors (rows : List Row) : List Row :=
  rows.filter allApproved

/-- The `COLOR_ID` group of `approved_colors.groupby("COLOR_ID")`
(`src/app.py` line 41) for a given color id: the eligible rows carrying
that id, in feed order. -/
def groupRows (rows : List Row) (c : String) : List Row :=
  (approvedColors rows).filter (fun r => r.colorId == c)

/-- Source `x["CONSUMERPRICE"].nunique()` (`src/app.py` line 42): the number of
distinct non-missing prices in a group. -/
def nunique (g : List Row) : Nat :=
  (g.filterMap (fun r => r.price)).dedup.length

/-- Source `x["CONSUMERPRICE"].isna().any()` (`src/app.py` line 42): some row of
the group has a missing price. -/
def anyMissing (g : List Row) : Bool :=
  g.any (fun r => r.price.isNone)

/-- The group predicate of `groupby("COLOR_ID").filter` (`src/app.py`
lines 41-43): distinct-price count above one, or some price missing. -/
def flagged (g : List Row) : Bool :=
  decide (1 < nunique g) || anyMissing g

/-- Source `inconsistent_prices = approved_colors.groupby("COLOR_ID").filter(...)`
(`src/app.py` lines 41-43): the eligible rows whose color group is
flagged, in feed order (pandas `filter` keeps original row order). -/
def inconsistentPrices (rows : List Row) : List Row :=
  (approvedColors rows).filter (fun r => flagged (groupRows rows r.colorId))

/-- The transform of `src/app.py` lines 47-51: the group-level issue
label, by the precedence written in the source. -/
def issueLabel (g : List Row) : String :=
  if anyMissing g && decide (1 < nunique g) then "No Price and Different Price"
  else if anyMissing g then "No Price"
  else "Different Price"

/-- One row of `output_df` (`src/app.py` lines 53-59). -/
structure OutputRecord where
  priceList : String
  pid : String
  colorId : String
  consumerPrice : Option Rat
  issue : String
  currencyCode : String
  scale : String
  unitFactor : String
  priceStart : String
  priceEnd : String
  deriving Repr, DecidableEq

/-- One row of the impex artifact: `output_df.drop(columns=["Issue"])`
(`src/app.py` line 66). -/
structure ImpexRecord where
  priceList : String
  pid : String
  colorId : String
  consumerPrice : Option Rat
  currencyCode : String
  scale : String
  unitFactor : String
  priceStart : String
  priceEnd : String
  deriving Repr, DecidableEq

/-- Projection of one flagged row to its output record (`src/app.py`
lines 47-59): the issue label is the one of the color group of the row. -/
def mkOutput (p : String) (rows : List Row) (r : Row) : OutputRecord :=
  { priceList := p
    pid := r.pid
    colorId := r.colorId
    consumerPrice := r.price
    issue := issueLabel (groupRows rows r.colorId)
    currencyCode := ""
    scale := ""
    unitFactor := ""
    priceStart := ""
    priceEnd := "" }

/-- Source `output_df` (`src/app.py` lines 47-59): every row of
`inconsistent_prices`, projected, in order. -/
def outputDf (p : String) (rows : List Row) : List OutputRecord :=
  (inconsistentPrices rows).map (mkOutput p rows)

/-- Source `output_df.drop(columns=["Issue"])` (`src/app.py` line 66) on one
record: every field kept except `Issue`. -/
def dropIssue (o : OutputRecord) : ImpexRecord :=
  { priceList := o.priceList
    pid := o.pid
    colorId := o.colorId
    consumerPrice := o.consumerPrice
    currencyCode := o.currencyCode
    scale := o.scale
    unitFactor := o.unitFactor
    priceStart := o.priceStart
    priceEnd := o.priceEnd }

/-- Outcome of one run of the analysis (`src/app.py` lines 24-81):
a schema error naming the missing columns (lines 26-28), the explicit
no-inconsistencies signal (lines 80-81), or the two artifacts
(lines 46-79). -/
inductive RunResult where
  | schemaError (missing : List String)
  | noInconsistencies
  | reports (issues : List OutputRecord) (impex : List ImpexRecord)
  deriving Repr, DecidableEq

/-- The whole run (`src/app.py` lines 22-81): header validation, field
normalization, eligibility filter, inconsistency detection, artifact
production. -/
def runAnalysis (header : List String) (country : String)
    (raws : List RawRow) : RunResult :=
  if missingColumns header ≠ [] then
    RunResult.schemaError (missingColumns header)
  else
    let rows := raws.map normalizeRow
    let out := outputDf (priceListOf country) rows
    if out = [] then RunResult.noInconsistencies
    else RunResult.reports out (out.map dropIssue)

/-! Concrete inputs used to exercise the theorems below. -/

/-- A single eligible, consistently priced row: its group is not flagged. -/
def w1rows : List Row := [⟨"P1", "C", some 10, true, true, true, true⟩]

/-- The example group of the spec: prices `[10.0, missing, 12.0]`, all eligible. -/
def w2g : List Row :=
  [⟨"P1", "C", some 10, true, true, true, true⟩,
   ⟨"P2", "C", none, true, true, true, true⟩,
   ⟨"P3", "C", some 12, true, true, true, true⟩]

/-- Two divergently priced rows of one color, none eligible. -/
def w3rows : List Row :=
  [⟨"P1", "C", some 10, false, true, true, true⟩,
   ⟨"P2", "C", some 12, false, false, false, false⟩]

/-- Two eligible rows of one color with different prices. -/
def w4rows : List Row :=
  [⟨"P1", "C", some 10, true, true, true, true⟩,
   ⟨"P2", "C", some 12, true, true, true, true⟩]

/-- A header omitting `CONSUMERPRICE`, the schema-error example of the spec. -/
def w5header : List String :=
  ["PID", "COLOR_ID", "BASE_APPROVED", "COLOR_APPROVED", "SKU_APPROVED",
   "ECOM_ENABLED"]

/-- A raw row whose price text fails numeric conversion. -/
def w7raw : RawRow := ⟨"P1", "C", "abc", "True", "True", "True", "True"⟩

/-- A raw feed with one color group holding two different prices. -/
def w9raws : List RawRow :=
  [⟨"P1", "C", "10", "True", "True", "True", "True"⟩,
   ⟨"P2", "C", "12", "True", "True", "True", "True"⟩]

/-- The issues table the analysis produces on `w9raws` for Colombia. -/
def w9issues : List OutputRecord :=
  outputDf "COPriceList" (w9raws.map normalizeRow)

/-- A single eligible row whose price is missing. -/
def w10rows : List Row := [⟨"P1", "C", none, true, true, true, true⟩]

/-! Helper lemmas about membership in the output table. -/

theorem mem_outputDf {p : String} {rows : List Row} {o : OutputRecord} :
    o ∈ outputDf p rows ↔
      ∃ r, (r ∈ rows ∧ allApproved r = true)
        ∧ flagged (groupRows rows r.colorId) = true ∧ mkOutput p rows r = o := by
  simp only [outputDf, inconsistentPrices, approvedColors, List.mem_map,
    List.mem_filter, and_assoc]

theorem issue_of_mem_outputDf {p : String} {rows : List Row} {o : OutputRecord}
    (h : o ∈ outputDf p rows) :
    o.issue = issueLabel (groupRows rows o.colorId) := by
  rcases mem_outputDf.mp h with ⟨r, _, _, rfl⟩
  rfl

theorem colorId_flagged_of_mem {p : String} {rows : List Row} {o : OutputRecord}
    (h : o ∈ outputDf p rows) :
    flagged (groupRows rows o.colorId) = true := by
  rcases mem_outputDf.mp h with ⟨r, _, hf, rfl⟩
  exact hf

/-- Claim C1: an eligible color group is flagged as inconsistent iff its
distinct non-missing price count among examined rows exceeds one or some
examined row has a missing price, and a group that is not flagged
contributes no row to the issues artifact nor to the impex artifact. -/
theorem flag_criterion_and_silence (rows : List Row) (c p : String) :
    (flagged (groupRows rows c) = true ↔
      1 < nunique (groupRows rows c) ∨ anyMissing (groupRows rows c) = true)
    ∧ (flagged (groupRows rows c) = false →
        (∀ o ∈ outputDf p rows, o.colorId ≠ c)
        ∧ (∀ e ∈ (outputDf p rows).map dropIssue, e.colorId ≠ c)) := by
  constructor
  · simp [flagged]
  · intro hflag
    have key : ∀ o ∈ outputDf p rows, o.colorId ≠ c := by
      intro o ho hc
      have hfl := colorId_flagged_of_mem ho
      rw [hc, hflag] at hfl
      exact Bool.false_ne_true hfl
    refine ⟨key, ?_⟩
    intro e he hc
    rcases List.mem_map.mp he with ⟨o, ho, rfl⟩
    exact key o ho hc

/-- Witness for C1 at a single consistently priced eligible row. -/
theorem flag_criterion_and_silence_witness :
    (∀ o ∈ outputDf "COPriceList" w1rows, o.colorId ≠ "C")
    ∧ (∀ e ∈ (outputDf "COPriceList" w1rows).map dropIssue, e.colorId ≠ "C") :=
  (flag_criterion_and_silence w1rows "C" "COPriceList").2 (by decide)

/-- Claim C2: every emitted row carries the label of its group, the label
follows the missing/distinct precedence of the source, and the example
group with prices `[10.0, missing, 12.0]`, all rows eligible, yields
"No Price and Different Price" for each of its three rows. -/
theorem issue_precedence_and_example :
    (∀ (p : String) (rows : List Row), ∀ o ∈ outputDf p rows,
        o.issue = issueLabel (groupRows rows o.colorId))
    ∧ (∀ g : List Row,
        (anyMissing g = true → 1 < nunique g →
          issueLabel g = "No Price and Different Price")
        ∧ (anyMissing g = true → ¬1 < nunique g → issueLabel g = "No Price")
        ∧ (anyMissing g = false → issueLabel g = "Different Price"))
    ∧ (outputDf "COPriceList" w2g).length = 3
    ∧ (∀ o ∈ outputDf "COPriceList" w2g,
        o.issue = "No Price and Different Price") := by
  refine ⟨fun p rows o ho => issue_of_mem_outputDf ho, fun g => ?_, by decide, by decide⟩
  refine ⟨fun h1 h2 => ?_, fun h1 h2 => ?_, fun h1 => ?_⟩
  · simp [issueLabel, h1, h2]
  · simp [issueLabel, h1, h2]
  · simp [issueLabel, h1]

/-- Witness for C2: the precedence applied to the example group. -/
theorem issue_precedence_and_example_witness :
    issueLabel w2g = "No Price and Different Price" :=
  (issue_precedence_and_example.2.1 w2g).1 (by decide) (by decide)

/-- Claim C3: a color group participates in the analysis iff one of its
rows has all four approval booleans true; groups with no such row never
produce a reported issue; only rows passing the four-flag test are
examined; and the output is unchanged by any change to rows outside the
eligible subset. -/
theorem eligibility_filter (rows : List Row) (c p : String) :
    ((groupRows rows c ≠ []) ↔ ∃ r ∈ rows, r.colorId = c ∧ allApproved r = true)
    ∧ ((¬∃ r ∈ rows, r.colorId = c ∧ allApproved r = true) →
        ∀ o ∈ outputDf p rows, o.colorId ≠ c)
    ∧ (∀ r ∈ groupRows rows c, allApproved r = true)
    ∧ (∀ rows2 : List Row, approvedColors rows = approvedColors rows2 →
        outputDf p rows = outputDf p rows2) := by
  have hmem : ∀ r : Row, r ∈ groupRows rows c ↔
      r ∈ rows ∧ allApproved r = true ∧ r.colorId = c := by
    intro r
    simp only [groupRows, approvedColors, List.mem_filter, beq_iff_eq, and_assoc]
  refine ⟨?_, ?_, ?_, ?_⟩
  · rw [Ne, List.eq_nil_iff_forall_not_mem]
    push_neg
    constructor
    · rintro ⟨r, hr⟩
      rcases (hmem r).mp hr with ⟨h1, h2, h3⟩
      exact ⟨r, h1, h3, h2⟩
    · rintro ⟨r, h1, h3, h2⟩
      exact ⟨r, (hmem r).mpr ⟨h1, h2, h3⟩⟩
  · intro hno o ho hc
    rcases mem_outputDf.mp ho with ⟨r, ⟨hr, happ⟩, _, rfl⟩
    exact hno ⟨r, hr, hc, happ⟩
  · intro r hr
    exact ((hmem r).mp hr).2.1
  · intro rows2 h
    simp only [outputDf, inconsistentPrices, groupRows, h]
    apply List.map_congr_left
    intro r hr
    simp only [mkOutput, groupRows, h]

/-- Witness for C3 at a group with divergent prices but no eligible row. -/
theorem eligibility_filter_witness :
    ∀ o ∈ outputDf "COPriceList" w3rows, o.colorId ≠ "C" :=
  (eligibility_filter w3rows "C" "COPriceList").2.1 (by decide)

/-- Claim C4: one group-level label is applied uniformly to every emitted
row of a flagged group — two output rows of the same color always carry
the same Issue — and every eligible row of a flagged group appears in the
output carrying the label of its group, even when its own price is present. -/
theorem uniform_group_label (rows : List Row) (p : String) :
    (∀ o1 ∈ outputDf p rows, ∀ o2 ∈ outputDf p rows,
        o1.colorId = o2.colorId → o1.issue = o2.issue)
    ∧ (∀ r ∈ approvedColors rows,
        flagged (groupRows rows r.colorId) = true →
          mkOutput p rows r ∈ outputDf p rows
          ∧ (mkOutput p rows r).issue = issueLabel (groupRows rows r.colorId)) := by
  constructor
  · intro o1 h1 o2 h2 hc
    rw [issue_of_mem_outputDf h1, issue_of_mem_outputDf h2, hc]
  · intro r hr hfl
    refine ⟨?_, rfl⟩
    unfold outputDf inconsistentPrices
    exact List.mem_map_of_mem _ (List.mem_filter.mpr ⟨hr, hfl⟩)

/-- Witness for C4: the present-price row of a flagged two-price group is
emitted with the group label. -/
theorem uniform_group_label_witness :
    mkOutput "COPriceList" w4rows ⟨"P1", "C", some 10, true, true, true, true⟩
      ∈ outputDf "COPriceList" w4rows
    ∧ (mkOutput "COPriceList" w4rows
        ⟨"P1", "C", some 10, true, true, true, true⟩).issue
      = issueLabel (groupRows w4rows "C") :=
  (uniform_group_label w4rows "COPriceList").2
    ⟨"P1", "C", some 10, true, true, true, true⟩ (by decide) (by decide)

/-- Claim C5: when the required column set is not contained in the parsed
header, the run stops with a schema error naming exactly the missing
columns, and no artifact is produced. -/
theorem schema_error_halts (header : List String) (country : String)
    (raws : List RawRow) (h : missingColumns header ≠ []) :
    runAnalysis header country raws = RunResult.schemaError (missingColumns header)
    ∧ ∀ c, (c ∈ missingColumns header ↔ c ∈ requiredColumns ∧ c ∉ header) := by
  refine ⟨by simp [runAnalysis, h], ?_⟩
  intro c
  simp [missingColumns, List.mem_filter]

/-- Witness for C5 at the example header of the spec missing `CONSUMERPRICE`. -/
theorem schema_error_halts_witness :
    runAnalysis w5header "Colombia" [] = RunResult.schemaError (missingColumns w5header)
    ∧ ∀ c, (c ∈ missingColumns w5header ↔ c ∈ requiredColumns ∧ c ∉ w5header) :=
  schema_error_halts w5header "Colombia" [] (by decide)

/-- Claim C6: an approval value normalizes to true iff its trimmed,
lower-cased form is the token "true"; "True", " true ", "TRUE" normalize
to true while "1", "yes" and the empty string normalize to false. -/
theorem approval_normalization (s : String) :
    (parseBool s = true ↔ pyLower (pyStrip s) = "true")
    ∧ parseBool "True" = true ∧ parseBool " true " = true
    ∧ parseBool "TRUE" = true ∧ parseBool "1" = false
    ∧ parseBool "yes" = false ∧ parseBool "" = false := by
  refine ⟨?_, by decide, by decide, by decide, by decide, by decide, by decide⟩
  simp [parseBool]

/-- Witness for C6 at a padded upper-case token. -/
theorem approval_normalization_witness :
    parseBool " TRUE " = true ↔ pyLower (pyStrip " TRUE ") = "true" :=
  (approval_normalization " TRUE ").1

/-- Claim C7: a price value that fails numeric conversion (the empty
string included) becomes the missing marker — not zero, not a dropped row,
no error — and makes its group count as having a missing price. -/
theorem price_coercion_to_missing (raw : RawRow)
    (h : toNumeric raw.consumerPrice = none) :
    (normalizeRow raw).price = none
    ∧ (normalizeRow raw).price ≠ some 0
    ∧ (∀ raws : List RawRow, (raws.map normalizeRow).length = raws.length)
    ∧ (∀ raws : List RawRow, raw ∈ raws → normalizeRow raw ∈ raws.map normalizeRow)
    ∧ (∀ g : List Row, normalizeRow raw ∈ g → anyMissing g = true)
    ∧ toNumeric "" = none := by
  refine ⟨h, ?_, ?_, ?_, ?_, by decide⟩
  · simp [normalizeRow, h]
  · intro raws
    simp
  · intro raws hr
    exact List.mem_map_of_mem _ hr
  · intro g hg
    exact List.any_eq_true.mpr ⟨normalizeRow raw, hg, by simp [normalizeRow, h]⟩

/-- Witness for C7 at the unparsable price text "abc". -/
theorem price_coercion_to_missing_witness :
    (normalizeRow w7raw).price = none
    ∧ (normalizeRow w7raw).price ≠ some 0
    ∧ (∀ raws : List RawRow, (raws.map normalizeRow).length = raws.length)
    ∧ (∀ raws : List RawRow, w7raw ∈ raws → normalizeRow w7raw ∈ raws.map normalizeRow)
    ∧ (∀ g : List Row, normalizeRow w7raw ∈ g → anyMissing g = true)
    ∧ toNumeric "" = none :=
  price_coercion_to_missing w7raw (by decide)

/-- Claim C8: when the header is valid and no color group is flagged, the
run ends in the explicit no-inconsistencies signal, with no artifact. -/
theorem no_inconsistencies_signal (header : List String) (country : String)
    (raws : List RawRow) (hschema : missingColumns header = [])
    (hcons : ∀ c, flagged (groupRows (raws.map normalizeRow) c) = false) :
    runAnalysis header country raws = RunResult.noInconsistencies := by
  have hip : inconsistentPrices (raws.map normalizeRow) = [] := by
    simp only [inconsistentPrices]
    rw [List.filter_eq_nil_iff]
    intro r _
    simp [hcons r.colorId]
  have hout : outputDf (priceListOf country) (raws.map normalizeRow) = [] := by
    simp [outputDf, hip]
  simp [runAnalysis, hschema, hout]

/-- Witness for C8 at the empty feed with a valid header. -/
theorem no_inconsistencies_signal_witness :
    runAnalysis requiredColumns "Colombia" [] = RunResult.noInconsistencies :=
  no_inconsistencies_signal requiredColumns "Colombia" [] (by decide) (fun _ => rfl)

/-- Claim C9: whenever both artifacts are produced, the impex table is the
issues table with the Issue column removed: same rows in the same order,
and every other field preserved record by record. -/
theorem impex_is_issues_without_issue (header : List String) (country : String)
    (raws : List RawRow) (issues : List OutputRecord) (impex : List ImpexRecord)
    (h : runAnalysis header country raws = RunResult.reports issues impex) :
    impex = issues.map dropIssue
    ∧ impex.length = issues.length
    ∧ ∀ o : OutputRecord,
        (dropIssue o).priceList = o.priceList
        ∧ (dropIssue o).pid = o.pid
        ∧ (dropIssue o).colorId = o.colorId
        ∧ (dropIssue o).consumerPrice = o.consumerPrice
        ∧ (dropIssue o).currencyCode = o.currencyCode
        ∧ (dropIssue o).scale = o.scale
        ∧ (dropIssue o).unitFactor = o.unitFactor
        ∧ (dropIssue o).priceStart = o.priceStart
        ∧ (dropIssue o).priceEnd = o.priceEnd := by
  by_cases h1 : missingColumns header ≠ []
  · simp [runAnalysis, h1] at h
  · by_cases h2 : outputDf (priceListOf country) (raws.map normalizeRow) = []
    · simp [runAnalysis, h1, h2] at h
    · simp [runAnalysis, h1, h2] at h
      obtain ⟨hiss, himp⟩ := h
      subst hiss
      subst himp
      exact ⟨rfl, by simp, fun o => ⟨rfl, rfl, rfl, rfl, rfl, rfl, rfl, rfl, rfl⟩⟩

/-- Witness for C9 at a feed with one divergently priced group. -/
theorem impex_is_issues_without_issue_witness :
    w9issues.map dropIssue = w9issues.map dropIssue
    ∧ (w9issues.map dropIssue).length = w9issues.length
    ∧ ∀ o : OutputRecord,
        (dropIssue o).priceList = o.priceList
        ∧ (dropIssue o).pid = o.pid
        ∧ (dropIssue o).colorId = o.colorId
        ∧ (dropIssue o).consumerPrice = o.consumerPrice
        ∧ (dropIssue o).currencyCode = o.currencyCode
        ∧ (dropIssue o).scale = o.scale
        ∧ (dropIssue o).unitFactor = o.unitFactor
        ∧ (dropIssue o).priceStart = o.priceStart
        ∧ (dropIssue o).priceEnd = o.priceEnd :=
  impex_is_issues_without_issue requiredColumns "Colombia" w9raws w9issues
    (w9issues.map dropIssue) (by decide)

/-- Claim C10: an eligible group all of whose examined rows have a missing
price is flagged with distinct-price count zero, and every emitted row of
that group carries "No Price". -/
theorem all_missing_is_no_price (rows : List Row) (c p : String)
    (hne : groupRows rows c ≠ [])
    (hall : ∀ r ∈ groupRows rows c, r.price = none) :
    flagged (groupRows rows c) = true
    ∧ nunique (groupRows rows c) = 0
    ∧ issueLabel (groupRows rows c) = "No Price"
    ∧ ∀ o ∈ outputDf p rows, o.colorId = c → o.issue = "No Price" := by
  have hnu : nunique (groupRows rows c) = 0 := by
    have hfm : (groupRows rows c).filterMap (fun r => r.price) = [] := by
      rw [List.filterMap_eq_nil_iff]
      exact hall
    simp [nunique, hfm]
  have hmiss : anyMissing (groupRows rows c) = true := by
    obtain ⟨r, hr⟩ := List.exists_mem_of_ne_nil _ hne
    exact List.any_eq_true.mpr ⟨r, hr, by simp [hall r hr]⟩
  have hlab : issueLabel (groupRows rows c) = "No Price" := by
    simp [issueLabel, hmiss, hnu]
  refine ⟨by simp [flagged, hmiss], hnu, hlab, ?_⟩
  intro o ho hc
  rw [issue_of_mem_outputDf ho, hc, hlab]

/-- Witness for C10 at a group whose single eligible row lacks a price. -/
theorem all_missing_is_no_price_witness :
    flagged (groupRows w10rows "C") = true
    ∧ nunique (groupRows w10rows "C") = 0
    ∧ issueLabel (groupRows w10rows "C") = "No Price"
    ∧ ∀ o ∈ outputDf "COPriceList" w10rows,
        o.colorId = "C" → o.issue = "No Price" :=
  all_missing_is_no_price w10rows "C" "COPriceList" (by decide) (by decide)

end PriceChecker
